import Mathlib

/-!
Shallow embedding of `parseMaterialRequest` from
`src/chatmat/frontend/src/utils/parseRequest.js` (the natural-language
request interpreter of the ChatMat repository), together with theorems
settling the specification claims about it.

Strings are modelled as `List Char` internally (`String` at the API
boundary). JavaScript regular-expression searches are modelled by
explicit leftmost-match scanners; for each concrete pattern of the source
the scanner reproduces the backtracking behaviour of the JS engine
(argued case by case in the doc comments). JavaScript's `toLowerCase`
is modelled on the ASCII range. `parseFloat` of the lattice-parameter
capture is not modelled numerically: the record keeps the captured
numeral string (no claim depends on the float value). All definitions
are executable, so concrete inputs evaluate by `decide`.
-/

namespace ChatMat

/-- ASCII lowercasing, modelling JavaScript `toLowerCase` (all inputs of
interest are ASCII; other characters pass through unchanged). -/
def jsToLower (c : Char) : Char :=
  if 'A' ≤ c ∧ c ≤ 'Z' then Char.ofNat (c.toNat + 32) else c

/-- Lowercase a character list, modelling `text.toLowerCase()`. -/
def lowerL (s : List Char) : List Char := s.map jsToLower

/-- Regex `\d`. -/
def isDigitC (c : Char) : Bool := decide ('0' ≤ c ∧ c ≤ '9')

def isUpperC (c : Char) : Bool := decide ('A' ≤ c ∧ c ≤ 'Z')

def isLowerC (c : Char) : Bool := decide ('a' ≤ c ∧ c ≤ 'z')

/-- Regex `\w` (ASCII word character). -/
def isWordC (c : Char) : Bool := isUpperC c || isLowerC c || isDigitC c || c == '_'

/-- Regex `\s` restricted to the ASCII range. -/
def isSpaceC (c : Char) : Bool :=
  c == ' ' || c == '\t' || c == '\n' || c == '\r' || c == '\x0b' || c == '\x0c'

/-- Boolean list-prefix test. -/
def isPrefixL : List Char → List Char → Bool
  | [], _ => true
  | _ :: _, [] => false
  | a :: as, b :: bs => a == b && isPrefixL as bs

/-- Boolean contiguous-substring test, modelling JS `String.includes`. -/
def isInfixL (needle : List Char) : List Char → Bool
  | [] => isPrefixL needle []
  | c :: rest => isPrefixL needle (c :: rest) || isInfixL needle rest

/-- Boolean suffix test, modelling a `...$` anchored regex test. -/
def isSuffixL (needle hay : List Char) : Bool := isPrefixL needle.reverse hay.reverse

/-- Numeric value of a digit string, modelling `parseInt` on a `\d+` capture. -/
def digitsVal (ds : List Char) : Nat := ds.foldl (fun n c => 10 * n + (c.toNat - 48)) 0

/-- Leftmost-match search: try the position matcher `f` at every start
position (every suffix), leftmost success first, modelling a
non-global JS regex search. -/
def scanFor {α : Type} (f : List Char → Option α) : List Char → Option α
  | [] => f []
  | c :: rest =>
    match f (c :: rest) with
    | some a => some a
    | none => scanFor f rest

/-! ### Stage 1: supercell-dimension extraction (lines 23-36)

Pattern objects: `/(\d+)\s*[x×]\s*(\d+)\s*[x×]\s*(\d+)/`,
`/supercell\s*[:\s]+(\d+)\s*[x×,]\s*(\d+)\s*[x×,]\s*(\d+)/`,
`/(\d+)\s+(\d+)\s+(\d+)/`, matched against the lowercased text in that
order. For these patterns maximal munch coincides with the JS
backtracking engine: giving back characters from a greedy `\d+` or `\s*`
always leaves a character of the same class in front of the next pattern
element, which that element cannot accept. -/

/-- Separator class `[x×]` of the first supercell pattern. -/
def isSepX (c : Char) : Bool := c == 'x' || c == '×'

/-- Separator class `[x×,]` of the second supercell pattern. -/
def isSepXC (c : Char) : Bool := c == 'x' || c == '×' || c == ','

/-- Match `(\d+)\s*SEP\s*(\d+)\s*SEP\s*(\d+)` at a fixed position,
parameterised by the separator class. -/
def tripleAt (sep : Char → Bool) (cs : List Char) : Option (Nat × Nat × Nat) :=
  let d1 := cs.takeWhile isDigitC
  let r1 := (cs.dropWhile isDigitC).dropWhile isSpaceC
  if d1.isEmpty then none else
  match r1 with
  | [] => none
  | c :: r2 =>
    if sep c then
      let r3 := r2.dropWhile isSpaceC
      let d2 := r3.takeWhile isDigitC
      let r4 := (r3.dropWhile isDigitC).dropWhile isSpaceC
      if d2.isEmpty then none else
      match r4 with
      | [] => none
      | c2 :: r5 =>
        if sep c2 then
          let d3 := (r5.dropWhile isSpaceC).takeWhile isDigitC
          if d3.isEmpty then none
          else some (digitsVal d1, digitsVal d2, digitsVal d3)
        else none
    else none

/-- The literal `supercell`. -/
def supercellWord : List Char := ['s', 'u', 'p', 'e', 'r', 'c', 'e', 'l', 'l']

/-- Match the second supercell pattern at a fixed position. The regex
fragment `\s*[:\s]+` accepts exactly the nonempty runs over `{':',
whitespace}` (the `\s*` part is absorbed by the larger class), and after
a maximal such run a digit is required. -/
def supercellAt (cs : List Char) : Option (Nat × Nat × Nat) :=
  if isPrefixL supercellWord cs then
    let r := cs.drop 9
    let seps := r.takeWhile (fun c => isSpaceC c || c == ':')
    if seps.isEmpty then none
    else tripleAt isSepXC (r.dropWhile (fun c => isSpaceC c || c == ':'))
  else none

/-- Match `(\d+)\s+(\d+)\s+(\d+)` at a fixed position. -/
def wsTripleAt (cs : List Char) : Option (Nat × Nat × Nat) :=
  let d1 := cs.takeWhile isDigitC
  let r1 := cs.dropWhile isDigitC
  let w1 := r1.takeWhile isSpaceC
  let r2 := r1.dropWhile isSpaceC
  let d2 := r2.takeWhile isDigitC
  let r3 := r2.dropWhile isDigitC
  let w2 := r3.takeWhile isSpaceC
  let r4 := r3.dropWhile isSpaceC
  let d3 := r4.takeWhile isDigitC
  if d1.isEmpty || w1.isEmpty || d2.isEmpty || w2.isEmpty || d3.isEmpty then none
  else some (digitsVal d1, digitsVal d2, digitsVal d3)

/-- The supercell loop (lines 30-36): first pattern that matches wins,
default `[1, 1, 1]`. -/
def supercellScan (tl : List Char) : List Nat :=
  match scanFor (tripleAt isSepX) tl with
  | some (a, b, c) => [a, b, c]
  | none =>
    match scanFor supercellAt tl with
    | some (a, b, c) => [a, b, c]
    | none =>
      match scanFor wsTripleAt tl with
      | some (a, b, c) => [a, b, c]
      | none => [1, 1, 1]

/-! ### Stage 2: structure-type keywords (lines 38-57) -/

/-- The `structureKeywords` table in declaration order. -/
def structureKeywords : List (String × List String) :=
  [ ("fcc", ["fcc", "face-centered cubic", "face centered cubic"]),
    ("bcc", ["bcc", "body-centered cubic", "body centered cubic"]),
    ("hcp", ["hcp", "hexagonal close-packed", "hexagonal close packed"]),
    ("diamond", ["diamond", "diamond cubic"]),
    ("sc", ["sc", "simple cubic"]),
    ("zincblende", ["zincblende", "zinc blende", "sphalerite"]),
    ("rocksalt", ["rocksalt", "rock salt", "nacl structure"]),
    ("wurtzite", ["wurtzite"]),
    ("perovskite", ["perovskite"]),
    ("rutile", ["rutile"]) ]

/-- One table entry matches when some synonym occurs in the lowercased
text (`keywords.some(kw => textLower.includes(kw))`). -/
def kwMatches (tl : List Char) (e : String × List String) : Bool :=
  e.2.any (fun kw => isInfixL kw.data tl)

/-- The structure-keyword loop (lines 52-57): first entry in declaration
order with a matching synonym, with break. -/
def structureScan (tl : List Char) : Option String :=
  (structureKeywords.find? (kwMatches tl)).map (fun e => e.1)

/-! ### Stage 3: lattice parameter (lines 59-71) -/

/-- Character class `[\d.]`. -/
def isNumDotC (c : Char) : Bool := isDigitC c || c == '.'

/-- Match `\s*=\s*([\d.]+)` (the common tail of patterns 1 and 3). -/
def latEqTail (r : List Char) : Option String :=
  match r.dropWhile isSpaceC with
  | '=' :: r2 =>
    let d := (r2.dropWhile isSpaceC).takeWhile isNumDotC
    if d.isEmpty then none else some (String.mk d)
  | _ => none

/-- Match `[al]\s*=\s*([\d.]+)` at a fixed position. -/
def latAt1 (cs : List Char) : Option String :=
  match cs with
  | c :: r => if c == 'a' || c == 'l' then latEqTail r else none
  | [] => none

def latticeWord : List Char := ['l', 'a', 't', 't', 'i', 'c', 'e']

def parameterWord : List Char := ['p', 'a', 'r', 'a', 'm', 'e', 't', 'e', 'r']

def constantWord : List Char := ['c', 'o', 'n', 's', 't', 'a', 'n', 't']

/-- Match `[:=]?\s*([\d.]+)`: taking an available `:`/`=` never loses a
match that skipping it would find, since a skipped `:`/`=` can be
consumed by nothing later in the pattern. -/
def latTail (r : List Char) : Option String :=
  let r2 := match r with
            | c :: rr => if c == ':' || c == '=' then rr else c :: rr
            | [] => []
  let d := (r2.dropWhile isSpaceC).takeWhile isNumDotC
  if d.isEmpty then none else some (String.mk d)

/-- Match `lattice\s*(?:parameter|constant)?\s*[:=]?\s*([\d.]+)` at a
fixed position, trying the alternation branches in the engine's order:
`parameter`, then `constant`, then the empty option. -/
def latAt2 (cs : List Char) : Option String :=
  if isPrefixL latticeWord cs then
    let r := (cs.drop 7).dropWhile isSpaceC
    match (if isPrefixL parameterWord r then latTail ((r.drop 9).dropWhile isSpaceC) else none) with
    | some v => some v
    | none =>
      match (if isPrefixL constantWord r then latTail ((r.drop 8).dropWhile isSpaceC) else none) with
      | some v => some v
      | none => latTail r
  else none

/-- Match `a\s*=\s*([\d.]+)` at a fixed position. -/
def latAt3 (cs : List Char) : Option String :=
  match cs with
  | c :: r => if c == 'a' then latEqTail r else none
  | [] => none

/-- The lattice-pattern loop (lines 65-71): the captured numeral of the
first pattern that matches anywhere (`parseFloat` is not modelled; the
capture string is kept). -/
def latticeScan (tl : List Char) : Option String :=
  match scanFor latAt1 tl with
  | some v => some v
  | none =>
    match scanFor latAt2 tl with
    | some v => some v
    | none => scanFor latAt3 tl

/-! ### Stop list and dictionaries (lines 73-96, 133-156) -/

/-- The `commonWords` stop list. -/
def commonWords : List String :=
  ["the", "for", "get", "calculate", "energy", "force",
   "structure", "supercell", "bulk", "of", "a", "an", "in", "on", "at"]

/-- The `compoundMap` dictionary in declaration order:
(key, display name, element list, optional structure-type override). -/
def compoundMap : List (String × String × List String × Option String) :=
  [ ("nacl", "NaCl", ["Na", "Cl"], none),
    ("sodium chloride", "NaCl", ["Na", "Cl"], none),
    ("mgo", "MgO", ["Mg", "O"], none),
    ("magnesium oxide", "MgO", ["Mg", "O"], none),
    ("gan", "GaN", ["Ga", "N"], none),
    ("gallium nitride", "GaN", ["Ga", "N"], none),
    ("gap", "GaP", ["Ga", "P"], none),
    ("gallium phosphide", "GaP", ["Ga", "P"], none),
    ("zns", "ZnS", ["Zn", "S"], none),
    ("zinc sulfide", "ZnS", ["Zn", "S"], none),
    ("tio2", "TiO2", ["Ti", "O"], none),
    ("titanium dioxide", "TiO2", ["Ti", "O"], none),
    ("sio2", "SiO2", ["Si", "O"], some "quartz"),
    ("silicon dioxide", "SiO2", ["Si", "O"], some "quartz"),
    ("quartz", "SiO2", ["Si", "O"], some "quartz"),
    ("catio3", "CaTiO3", ["Ca", "Ti", "O"], none),
    ("calcium titanate", "CaTiO3", ["Ca", "Ti", "O"], none) ]

/-- The compound-dictionary loop (lines 98-107): first key in declaration
order that occurs in the lowercased text; a hit makes the whole function
return immediately. -/
def compoundMapScan (tl : List Char) : Option (String × List String × Option String) :=
  (compoundMap.find? (fun e => isInfixL e.1.data tl)).map (fun e => e.2)

/-- The `elementMap` dictionary in declaration order. -/
def elementMap : List (String × String) :=
  [ ("silicon", "Si"), ("si", "Si"),
    ("aluminum", "Al"), ("aluminium", "Al"), ("al", "Al"),
    ("gold", "Au"), ("au", "Au"),
    ("copper", "Cu"), ("cu", "Cu"),
    ("iron", "Fe"), ("fe", "Fe"),
    ("titanium", "Ti"), ("ti", "Ti"),
    ("magnesium", "Mg"), ("mg", "Mg"),
    ("nickel", "Ni"), ("ni", "Ni"),
    ("zinc", "Zn"), ("zn", "Zn"),
    ("carbon", "C"), ("c", "C"),
    ("germanium", "Ge"), ("ge", "Ge"),
    ("chromium", "Cr"), ("cr", "Cr"),
    ("molybdenum", "Mo"), ("mo", "Mo"),
    ("tungsten", "W"), ("w", "W"),
    ("vanadium", "V"), ("v", "V"),
    ("cobalt", "Co"), ("co", "Co"),
    ("palladium", "Pd"), ("pd", "Pd"),
    ("platinum", "Pt"), ("pt", "Pt"),
    ("silver", "Ag"), ("ag", "Ag"),
    ("beryllium", "Be"), ("be", "Be"),
    ("zirconium", "Zr"), ("zr", "Zr") ]

/-- The element-name loop (lines 158-163): first key in declaration order
that occurs in the lowercased text. -/
def elementMapScan (tl : List Char) : Option String :=
  (elementMap.find? (fun e => isInfixL e.1.data tl)).map (fun e => e.2)

/-! ### Word-boundary token scanners (lines 111-112, 167) -/

/-- Word boundary after a token: end of input or a non-word character. -/
def endBoundary : List Char → Bool
  | [] => true
  | c :: _ => !isWordC c

/-- Word boundary before a token: start of input or a non-word previous
character. JS `\b` inspects the actual preceding character even in a
global scan. -/
def startOk : Option Char → Bool
  | none => true
  | some c => !isWordC c

/-- One optional single-character regex element (such as `[a-z]?`) applied
to a partial-match state `(consumed, remaining)`: greedy, so the taking
branch is listed before the skipping branch. -/
def optTake (p : Char → Bool) (st : List Char × List Char) : List (List Char × List Char) :=
  match st.2 with
  | c :: r => if p c then [(st.1 ++ [c], r), st] else [st]
  | [] => [st]

/-- Finish a candidate token with `\d*\b`. Only the maximal digit run can
reach a boundary (any shorter run is followed by a digit, a word
character), so the digit part is deterministic. -/
def digitsEnd (st : List Char × List Char) : Option (List Char × List Char) :=
  let ds := st.2.takeWhile isDigitC
  let r := st.2.dropWhile isDigitC
  if endBoundary r then some (st.1 ++ ds, r) else none

/-- First success of `f` over a list of alternatives. -/
def firstSome {α β : Type} (f : α → Option β) : List α → Option β
  | [] => none
  | a :: as =>
    match f a with
    | some b => some b
    | none => firstSome f as

/-- Match one token of `\b([A-Z][a-z]?[A-Z]?[a-z]?\d*)\b` at a fixed
position (the start boundary is checked by the caller). The three
optional letter elements are explored in the engine's backtracking
order: most recent choice point flips first, which is the lexicographic
order on (take, skip) triples produced by the nested `optTake`s. -/
def compTokAt (cs : List Char) : Option (List Char × List Char) :=
  match cs with
  | c0 :: r0 =>
    if isUpperC c0 then
      firstSome digitsEnd
        ((((optTake isLowerC ([c0], r0)).flatMap (optTake isUpperC)).flatMap (optTake isLowerC)))
    else none
  | [] => none

/-- Match one token of `\b([A-Z][a-z]?)\b` at a fixed position. -/
def symTokAt (cs : List Char) : Option (List Char × List Char) :=
  match cs with
  | c0 :: r0 =>
    if isUpperC c0 then
      match r0 with
      | c1 :: r1 =>
        if isLowerC c1 && endBoundary r1 then some ([c0, c1], r1)
        else if endBoundary r0 then some ([c0], r0)
        else none
      | [] => some ([c0], [])
    else none
  | [] => none

/-- Global scan (`/.../g` with `String.match`): collect successive
leftmost matches, resuming after each match end; fuelled by the input
length, which suffices since every step consumes at least one
character. -/
def tokensScanF (tokAt : List Char → Option (List Char × List Char)) :
    Nat → Option Char → List Char → List (List Char)
  | 0, _, _ => []
  | _ + 1, _, [] => []
  | n + 1, prev, c :: rest =>
    if startOk prev then
      match tokAt (c :: rest) with
      | some (tok, after) => tok :: tokensScanF tokAt n tok.getLast? after
      | none => tokensScanF tokAt n (some c) rest
    else tokensScanF tokAt n (some c) rest

/-- All matches of the compound-candidate pattern (line 111-112),
on the original-case text. -/
def jsTokens (td : List Char) : List (List Char) :=
  tokensScanF compTokAt td.length none td

/-- All matches of the bare-symbol pattern (line 167). -/
def symTokens (td : List Char) : List (List Char) :=
  tokensScanF symTokAt td.length none td

/-- Alternating-case segmentation `match.match(/[A-Z][a-z]?/g)`
(line 118). -/
def formulaSegs : List Char → List String
  | [] => []
  | [c] => if isUpperC c then [String.mk [c]] else []
  | c1 :: c2 :: rest =>
    if isUpperC c1 && isLowerC c2 then String.mk [c1, c2] :: formulaSegs rest
    else if isUpperC c1 then String.mk [c1] :: formulaSegs (c2 :: rest)
    else formulaSegs (c2 :: rest)

/-- The candidate-token loop (lines 114-129). Returns the final
`material_name` override (later assignments win) and the compound, if
the loop broke with one. -/
def candLoop : List (List Char) → Option String × Option (List String)
  | [] => (none, none)
  | tok :: rest =>
    if commonWords.contains (String.mk (lowerL tok)) then candLoop rest
    else if tok.any isDigitC then
      if 2 ≤ (formulaSegs tok).length then (some (String.mk tok), some (formulaSegs tok))
      else
        (some (((candLoop rest).1).getD (String.mk tok)), (candLoop rest).2)
    else
      match tok with
      | [a, b] =>
        if isUpperC a && isUpperC b then
          (some (String.mk tok), some [String.mk [a], String.mk [b]])
        else candLoop rest
      | _ => candLoop rest

/-- The bare-symbol fallback (lines 166-172): the first filtered symbol
token, if any. -/
def firstPotentialElement (td : List Char) : Option String :=
  (((symTokens td).filter
      (fun t => !commonWords.contains (String.mk (lowerL t)) && t.length ≤ 2)).head?).map
    String.mk

/-! ### External-source detectors (lines 175-200) -/

/-- Match `\bmp-\d+\b` (case-insensitive) at a fixed position; the token
keeps the original case (`match[0]`). -/
def mpAt (cs : List Char) : Option (List Char × List Char) :=
  match cs with
  | c0 :: c1 :: c2 :: r =>
    if jsToLower c0 == 'm' && jsToLower c1 == 'p' && c2 == '-' then
      if (r.takeWhile isDigitC).isEmpty then none
      else if endBoundary (r.dropWhile isDigitC) then
        some (c0 :: c1 :: c2 :: r.takeWhile isDigitC, r.dropWhile isDigitC)
      else none
    else none
  | _ => none

/-- Match `\bcod-?\d+\b` (case-insensitive) at a fixed position. If the
optional `-` is taken but no digit follows, giving the `-` back cannot
help (`\d+` then fails on the `-` itself), so the dash handling is
deterministic. -/
def codAt (cs : List Char) : Option (List Char × List Char) :=
  match cs with
  | c0 :: c1 :: c2 :: r =>
    if jsToLower c0 == 'c' && jsToLower c1 == 'o' && jsToLower c2 == 'd' then
      match r with
      | c3 :: r2 =>
        if c3 == '-' then
          if (r2.takeWhile isDigitC).isEmpty then none
          else if endBoundary (r2.dropWhile isDigitC) then
            some (c0 :: c1 :: c2 :: c3 :: r2.takeWhile isDigitC, r2.dropWhile isDigitC)
          else none
        else
          if ((c3 :: r2).takeWhile isDigitC).isEmpty then none
          else if endBoundary ((c3 :: r2).dropWhile isDigitC) then
            some (c0 :: c1 :: c2 :: (c3 :: r2).takeWhile isDigitC, (c3 :: r2).dropWhile isDigitC)
          else none
      | [] => none
    else none
  | _ => none

/-- Leftmost boundary-anchored token search (non-global `String.match`
with a `\b`-starting pattern). -/
def findTok (tokAt : List Char → Option (List Char × List Char)) :
    Option Char → List Char → Option (List Char)
  | _, [] => none
  | prev, c :: rest =>
    if startOk prev then
      match tokAt (c :: rest) with
      | some (tok, _) => some tok
      | none => findTok tokAt (some c) rest
    else findTok tokAt (some c) rest

def findMp (td : List Char) : Option (List Char) := findTok mpAt none td

def findCod (td : List Char) : Option (List Char) := findTok codAt none td

/-- The replacement `codMatch[0].replace(/^cod-?/, "")` (line 185): the
replace regex is case-sensitive, unlike the search. -/
def stripCod (t : List Char) : List Char :=
  match t with
  | a :: b :: c :: rest =>
    if a == 'c' && b == 'o' && c == 'd' then
      match rest with
      | d :: rest2 => if d == '-' then rest2 else d :: rest2
      | [] => []
    else a :: b :: c :: rest
  | _ => t

/-- Match `https?:\/\/\S+` at a fixed position (case-sensitive, no word
boundaries). If `s` is present but not followed by `://`, the
backtracked attempt without `s` needs `://` at the `s` and fails too. -/
def urlAt (cs : List Char) : Option (List Char) :=
  match cs with
  | c0 :: c1 :: c2 :: c3 :: c4 :: c5 :: c6 :: c7 :: r2 =>
    if c0 == 'h' && c1 == 't' && c2 == 't' && c3 == 'p' then
      if c4 == 's' then
        if c5 == ':' && c6 == '/' && c7 == '/' then
          if (r2.takeWhile (fun c => !isSpaceC c)).isEmpty then none
          else some (c0 :: c1 :: c2 :: c3 :: c4 :: c5 :: c6 :: c7 ::
            r2.takeWhile (fun c => !isSpaceC c))
        else none
      else
        if c4 == ':' && c5 == '/' && c6 == '/' then
          if ((c7 :: r2).takeWhile (fun c => !isSpaceC c)).isEmpty then none
          else some (c0 :: c1 :: c2 :: c3 :: c4 :: c5 :: c6 ::
            (c7 :: r2).takeWhile (fun c => !isSpaceC c))
        else none
    else none
  | _ => none

def findUrl (td : List Char) : Option (List Char) := scanFor urlAt td

/-- The test `/[\/\\]/.test(text)` (line 197). -/
def hasSepC (td : List Char) : Bool := td.any (fun c => c == '/' || c == '\\')

def extList : List String := [".cif", ".xyz", ".vasp", ".poscar"]

/-- The test `/\.(cif|xyz|vasp|poscar)$/.test(text)` (line 197,
case-sensitive, `$` is end of input). -/
def endsWithExt (td : List Char) : Bool := extList.any (fun e => isSuffixL e.data td)

/-- JS `String.trim` on the ASCII range. -/
def jsTrim (td : List Char) : List Char :=
  ((td.dropWhile isSpaceC).reverse.dropWhile isSpaceC).reverse

/-! ### The result record and the function itself -/

/-- The result record initialised at lines 10-21 (`lattice_parameter`
holds the captured numeral string; see the file header). -/
structure StructureRequest where
  material_name : String
  supercell_dims : List Nat
  structure_type : Option String
  lattice_parameter : Option String
  compound : Option (List String)
  source_type : Option String
  source_params : List (String × String)
  use_llm : Bool
  llm_provider : Option String
  llm_params : List (String × String)
deriving DecidableEq

/-- Build the result record; the fields never touched after
initialisation keep their defaults. -/
def baseResult (dims : List Nat) (st lat : Option String) (mat : String)
    (comp : Option (List String)) (src : Option String) : StructureRequest :=
  { material_name := mat, supercell_dims := dims, structure_type := st,
    lattice_parameter := lat, compound := comp, source_type := src,
    source_params := [], use_llm := false, llm_provider := none, llm_params := [] }

/-- The external-source detectors (lines 175-202), applied to the state
accumulated by the earlier stages. -/
def externalPhase (td : List Char) (dims : List Nat) (st lat : Option String)
    (mat : String) (comp : Option (List String)) : StructureRequest :=
  match findMp td with
  | some tok => baseResult dims st lat (String.mk tok) comp (some "mp")
  | none =>
    match findCod td with
    | some tok => baseResult dims st lat (String.mk (stripCod tok)) comp (some "cod")
    | none =>
      match findUrl td with
      | some tok => baseResult dims st lat (String.mk tok) comp (some "url")
      | none =>
        if hasSepC td || endsWithExt td then
          baseResult dims st lat (String.mk (jsTrim td)) comp (some "file")
        else baseResult dims st lat mat comp none

/-- The element-identity resolver (lines 133-173) applied to the
material name `m2` accumulated so far: the element-name dictionary may
overwrite it, and the bare-symbol fallback runs exactly when the result
of the dictionary step is the string `"Si"` (the line 166 comparison
against the initial default). -/
def elementResolve (td tl : List Char) (m2 : String) : String :=
  match elementMapScan tl with
  | some sym => if sym = "Si" then (firstPotentialElement td).getD sym else sym
  | none => if m2 = "Si" then (firstPotentialElement td).getD m2 else m2

/-- The compound-formula and element resolvers (lines 109-173), entered
only when the compound dictionary missed. Returns the material name
(starting from the default `"Si"`) and the optional compound. -/
def identityPhase (td tl : List Char) : String × Option (List String) :=
  match candLoop (jsTokens td) with
  | (mOv, some comp) => (mOv.getD "Si", some comp)
  | (mOv, none) => (elementResolve td tl (mOv.getD "Si"), none)

/-- The whole of `parseMaterialRequest` (lines 6-203): stages 1-3 on the
lowercased text, then the dictionary short-circuit (which skips the
external detectors entirely), otherwise the formula/element resolvers
followed by the external detectors. -/
def parseMaterialRequest (text : String) : StructureRequest :=
  match compoundMapScan (lowerL text.data) with
  | some (name, comp, stOv) =>
    baseResult (supercellScan (lowerL text.data))
      (match stOv with | some s => some s | none => structureScan (lowerL text.data))
      (latticeScan (lowerL text.data)) name (some comp) none
  | none =>
    externalPhase text.data (supercellScan (lowerL text.data))
      (structureScan (lowerL text.data)) (latticeScan (lowerL text.data))
      (identityPhase text.data (lowerL text.data)).1
      (identityPhase text.data (lowerL text.data)).2

/-! ### Spec-side predicate for the bare-triple claim (C5)

The claim quantifies over inputs "containing a digit triple of the form
DxDxD or D×D×D (bare digits separated by the letter x or the sign ×)".
The predicate below formalises that hypothesis from the claim's wording,
independent of the code's matcher: an occurrence of three digit runs
joined directly by `x`/`×`, delimited on both sides by non-digits (or
the ends of the string), reading the runs as the three integers. -/

/-- Bare triple occurrence at a fixed position: maximal digit run, a
separator, a run, a separator, a run, not followed by a further digit
(`dropWhile` already guarantees the runs are maximal to the right). -/
def bareAt (cs : List Char) (a b c : Nat) : Bool :=
  let d1 := cs.takeWhile isDigitC
  let r1 := cs.dropWhile isDigitC
  match r1 with
  | s1 :: r2 =>
    if isSepX s1 && !d1.isEmpty then
      let d2 := r2.takeWhile isDigitC
      let r3 := r2.dropWhile isDigitC
      match r3 with
      | s2 :: r4 =>
        if isSepX s2 && !d2.isEmpty then
          let d3 := r4.takeWhile isDigitC
          !d3.isEmpty && digitsVal d1 == a && digitsVal d2 == b && digitsVal d3 == c
        else false
      | [] => false
    else false
  | [] => false

/-- Scan for a bare triple anywhere, tracking the preceding character so
the first digit run is maximal to the left as well. -/
def containsBareTripleAux (a b c : Nat) : Option Char → List Char → Bool
  | prev, [] =>
    (match prev with | some p => !isDigitC p | none => true) && bareAt [] a b c
  | prev, x :: rest =>
    ((match prev with | some p => !isDigitC p | none => true) && bareAt (x :: rest) a b c)
      || containsBareTripleAux a b c (some x) rest

/-- The claim's hypothesis: the text contains the bare digit triple
`a x b x c` (separators `x` or `×`, no spaces). -/
def containsBareTriple (s : String) (a b c : Nat) : Bool :=
  containsBareTripleAux a b c none s.data

/-! ### Generic helper lemmas -/

/-- A `find?` over a list whose prefix uniformly fails the predicate
returns the first success. -/
theorem find?_append_first {α : Type} (p : α → Bool) (e : α) :
    ∀ (pre post : List α), (∀ x ∈ pre, p x = false) → p e = true →
      (pre ++ e :: post).find? p = some e := by
  intro pre post hpre he
  induction pre with
  | nil => rw [List.nil_append, List.find?_cons_of_pos _ he]
  | cons h t ih =>
    have hh : ¬ p h = true := by
      rw [hpre h (List.mem_cons_self h t)]; exact Bool.false_ne_true
    have ht : ∀ x ∈ t, p x = false := fun x hx => hpre x (List.mem_cons_of_mem h hx)
    rw [List.cons_append, List.find?_cons_of_neg _ hh]
    exact ih ht

/-- Membership transfer for `List.contains` over a lawful `BEq`. -/
theorem mem_of_contains {α : Type} [BEq α] [LawfulBEq α] {l : List α} {a : α}
    (h : l.contains a = true) : a ∈ l :=
  List.elem_iff.mp h

/-- A non-space member of a list survives `dropWhile isSpaceC`. -/
theorem mem_dropWhile_of_nonspace {c : Char} :
    ∀ {l : List Char}, c ∈ l → isSpaceC c = false → c ∈ l.dropWhile isSpaceC := by
  intro l
  induction l with
  | nil => intro h _; cases h
  | cons h t ih =>
    intro hm hns
    by_cases hh : isSpaceC h
    · have : c ∈ t := by
        rcases List.mem_cons.mp hm with rfl | ht
        · rw [hns] at hh; cases hh
        · exact ht
      simpa [List.dropWhile, hh] using ih this hns
    · simpa [List.dropWhile, hh] using hm

/-- A non-space member of the text survives `jsTrim`. -/
theorem mem_jsTrim_of_nonspace {c : Char} {td : List Char}
    (hm : c ∈ td) (hns : isSpaceC c = false) : c ∈ jsTrim td := by
  unfold jsTrim
  have h1 : c ∈ td.dropWhile isSpaceC := mem_dropWhile_of_nonspace hm hns
  have h2 : c ∈ (td.dropWhile isSpaceC).reverse := List.mem_reverse.mpr h1
  have h3 : c ∈ ((td.dropWhile isSpaceC).reverse).dropWhile isSpaceC :=
    mem_dropWhile_of_nonspace h2 hns
  exact List.mem_reverse.mpr h3

/-- Every character of a Boolean prefix is a character of the list. -/
theorem mem_of_isPrefixL {c : Char} :
    ∀ {n h : List Char}, isPrefixL n h = true → c ∈ n → c ∈ h := by
  intro n
  induction n with
  | nil => intro h _ hc; cases hc
  | cons a as ih =>
    intro h hp hc
    cases h with
    | nil => simp [isPrefixL] at hp
    | cons b bs =>
      simp only [isPrefixL, Bool.and_eq_true, beq_iff_eq] at hp
      rcases List.mem_cons.mp hc with rfl | hmem
      · exact hp.1 ▸ List.mem_cons_self b bs
      · exact List.mem_cons_of_mem b (ih hp.2 hmem)

/-- Every character of a Boolean suffix is a character of the list. -/
theorem mem_of_isSuffixL {c : Char} {n h : List Char}
    (hs : isSuffixL n h = true) (hc : c ∈ n) : c ∈ h := by
  unfold isSuffixL at hs
  exact List.mem_reverse.mp (mem_of_isPrefixL hs (List.mem_reverse.mpr hc))

/-- Success of a leftmost scan comes from success of the position matcher
on some suffix. -/
theorem scanFor_some {α : Type} (f : List Char → Option α) :
    ∀ (cs : List Char) (a : α), scanFor f cs = some a → ∃ suf, f suf = some a := by
  intro cs
  induction cs with
  | nil => intro a h; exact ⟨[], by simpa [scanFor] using h⟩
  | cons c rest ih =>
    intro a h
    unfold scanFor at h
    cases hf : f (c :: rest) with
    | some b =>
      rw [hf] at h
      refine ⟨c :: rest, ?_⟩
      rw [hf]
      exact h
    | none =>
      rw [hf] at h
      exact ih a h

/-- Success of a boundary-anchored token search comes from success of the
position matcher on some suffix. -/
theorem findTok_some (tokAt : List Char → Option (List Char × List Char)) :
    ∀ (prev : Option Char) (cs : List Char) (tok : List Char),
      findTok tokAt prev cs = some tok → ∃ suf rest, tokAt suf = some (tok, rest) := by
  intro prev cs
  induction cs generalizing prev with
  | nil => intro tok h; simp [findTok] at h
  | cons c rest ih =>
    intro tok h
    unfold findTok at h
    by_cases hb : startOk prev = true
    · rw [if_pos hb] at h
      cases hf : tokAt (c :: rest) with
      | some pr =>
        rw [hf] at h
        exact ⟨c :: rest, pr.2, by rw [hf]; cases pr; simpa using h⟩
      | none => rw [hf] at h; exact ih (some c) tok h
    · rw [if_neg hb] at h
      exact ih (some c) tok h

/-! ### Field lemmas for the record-building phases -/

theorem externalPhase_fields (td : List Char) (dims : List Nat) (st lat : Option String)
    (mat : String) (comp : Option (List String)) :
    (externalPhase td dims st lat mat comp).supercell_dims = dims ∧
    (externalPhase td dims st lat mat comp).structure_type = st ∧
    (externalPhase td dims st lat mat comp).lattice_parameter = lat ∧
    (externalPhase td dims st lat mat comp).compound = comp ∧
    (externalPhase td dims st lat mat comp).use_llm = false ∧
    (externalPhase td dims st lat mat comp).source_params = [] ∧
    (externalPhase td dims st lat mat comp).llm_provider = none ∧
    (externalPhase td dims st lat mat comp).llm_params = [] := by
  unfold externalPhase
  split
  · simp [baseResult]
  · split
    · simp [baseResult]
    · split
      · simp [baseResult]
      · split <;> simp [baseResult]

theorem parse_dims (s : String) :
    (parseMaterialRequest s).supercell_dims = supercellScan (lowerL s.data) := by
  unfold parseMaterialRequest
  split
  · simp [baseResult]
  · exact (externalPhase_fields _ _ _ _ _ _).1

theorem parse_inert_fields (s : String) :
    (parseMaterialRequest s).use_llm = false ∧
    (parseMaterialRequest s).llm_provider = none ∧
    (parseMaterialRequest s).llm_params = [] ∧
    (parseMaterialRequest s).source_params = [] := by
  unfold parseMaterialRequest
  split
  · simp [baseResult]
  · obtain ⟨-, -, -, -, h5, h6, h7, h8⟩ := externalPhase_fields _ _ _ _ _ _
    exact ⟨h5, h7, h8, h6⟩

theorem supercellScan_length (tl : List Char) : (supercellScan tl).length = 3 := by
  unfold supercellScan
  split
  · rfl
  · split
    · rfl
    · split <;> rfl

theorem supercellScan_first (tl : List Char) (a b c : Nat)
    (h : scanFor (tripleAt isSepX) tl = some (a, b, c)) :
    supercellScan tl = [a, b, c] := by
  unfold supercellScan
  rw [h]

theorem supercellScan_default (tl : List Char)
    (h1 : scanFor (tripleAt isSepX) tl = none)
    (h2 : scanFor supercellAt tl = none)
    (h3 : scanFor wsTripleAt tl = none) :
    supercellScan tl = [1, 1, 1] := by
  unfold supercellScan
  rw [h1, h2, h3]

/-! ### Branch equations for `parseMaterialRequest` -/

theorem parse_eq_dict (s : String) (name : String) (comp : List String) (stOv : Option String)
    (h0 : compoundMapScan (lowerL s.data) = some (name, comp, stOv)) :
    parseMaterialRequest s =
      baseResult (supercellScan (lowerL s.data))
        (match stOv with | some v => some v | none => structureScan (lowerL s.data))
        (latticeScan (lowerL s.data)) name (some comp) none := by
  unfold parseMaterialRequest
  simp only [h0]
  cases stOv <;> rfl

theorem parse_eq_external (s : String)
    (h0 : compoundMapScan (lowerL s.data) = none) :
    parseMaterialRequest s =
      externalPhase s.data (supercellScan (lowerL s.data))
        (structureScan (lowerL s.data)) (latticeScan (lowerL s.data))
        (identityPhase s.data (lowerL s.data)).1
        (identityPhase s.data (lowerL s.data)).2 := by
  unfold parseMaterialRequest
  rw [h0]

theorem externalPhase_mp (td : List Char) (dims : List Nat) (st lat : Option String)
    (mat : String) (comp : Option (List String)) (tok : List Char)
    (h : findMp td = some tok) :
    externalPhase td dims st lat mat comp =
      baseResult dims st lat (String.mk tok) comp (some "mp") := by
  unfold externalPhase
  rw [h]

theorem externalPhase_cod (td : List Char) (dims : List Nat) (st lat : Option String)
    (mat : String) (comp : Option (List String)) (tok : List Char)
    (h1 : findMp td = none) (h2 : findCod td = some tok) :
    externalPhase td dims st lat mat comp =
      baseResult dims st lat (String.mk (stripCod tok)) comp (some "cod") := by
  unfold externalPhase
  rw [h1, h2]

theorem externalPhase_url (td : List Char) (dims : List Nat) (st lat : Option String)
    (mat : String) (comp : Option (List String)) (tok : List Char)
    (h1 : findMp td = none) (h2 : findCod td = none) (h3 : findUrl td = some tok) :
    externalPhase td dims st lat mat comp =
      baseResult dims st lat (String.mk tok) comp (some "url") := by
  unfold externalPhase
  rw [h1, h2, h3]

theorem externalPhase_file (td : List Char) (dims : List Nat) (st lat : Option String)
    (mat : String) (comp : Option (List String))
    (h1 : findMp td = none) (h2 : findCod td = none) (h3 : findUrl td = none)
    (h4 : (hasSepC td || endsWithExt td) = true) :
    externalPhase td dims st lat mat comp =
      baseResult dims st lat (String.mk (jsTrim td)) comp (some "file") := by
  unfold externalPhase
  rw [h1, h2, h3]
  simp [h4]

theorem externalPhase_plain (td : List Char) (dims : List Nat) (st lat : Option String)
    (mat : String) (comp : Option (List String))
    (h1 : findMp td = none) (h2 : findCod td = none) (h3 : findUrl td = none)
    (h4 : (hasSepC td || endsWithExt td) = false) :
    externalPhase td dims st lat mat comp = baseResult dims st lat mat comp none := by
  unfold externalPhase
  rw [h1, h2, h3]
  simp [h4]

/-! ### Claim C1 -/

/-- C1 counterexample: the external-source detector is not unconditional.
The input `"nacl mp-149"` contains the Materials-Project identifier
`mp-149` (the detector's own matcher finds it), yet the compound
dictionary's early return resolves `"NaCl"` first and `sourceType` stays
unset, contradicting the claim that the detector runs last and overrides
any resolved identity. -/
theorem external_detector_skipped_on_dict_hit :
    findMp ("nacl mp-149".data) = some ("mp-149".data) ∧
    (parseMaterialRequest "nacl mp-149").source_type = none ∧
    (parseMaterialRequest "nacl mp-149").material_name = "NaCl" := by
  decide

/-- C1 (amended): the external-source detector stage runs after the
formula/element resolvers and overrides their result, but only when the
compound dictionary (stage 4.4 Step A) did not match; given that, an mp
identifier, else a cod identifier, else a URL, else a path separator or
structure-file extension sets the corresponding `sourceType` and
overwrites `materialName` with the identifier, stripped cod token, URL,
or trimmed input text respectively. -/
theorem external_detector_after_resolvers (s : String)
    (h0 : compoundMapScan (lowerL s.data) = none) :
    (∀ tok, findMp s.data = some tok →
      (parseMaterialRequest s).source_type = some "mp" ∧
      (parseMaterialRequest s).material_name = String.mk tok) ∧
    (findMp s.data = none → ∀ tok, findCod s.data = some tok →
      (parseMaterialRequest s).source_type = some "cod" ∧
      (parseMaterialRequest s).material_name = String.mk (stripCod tok)) ∧
    (findMp s.data = none → findCod s.data = none → ∀ tok, findUrl s.data = some tok →
      (parseMaterialRequest s).source_type = some "url" ∧
      (parseMaterialRequest s).material_name = String.mk tok) ∧
    (findMp s.data = none → findCod s.data = none → findUrl s.data = none →
      (hasSepC s.data || endsWithExt s.data) = true →
      (parseMaterialRequest s).source_type = some "file" ∧
      (parseMaterialRequest s).material_name = String.mk (jsTrim s.data)) := by
  rw [parse_eq_external s h0]
  refine ⟨?_, ?_, ?_, ?_⟩
  · intro tok htok
    rw [externalPhase_mp _ _ _ _ _ _ _ htok]
    exact ⟨rfl, rfl⟩
  · intro hmp tok htok
    rw [externalPhase_cod _ _ _ _ _ _ _ hmp htok]
    exact ⟨rfl, rfl⟩
  · intro hmp hcod tok htok
    rw [externalPhase_url _ _ _ _ _ _ _ hmp hcod htok]
    exact ⟨rfl, rfl⟩
  · intro hmp hcod hurl hfile
    rw [externalPhase_file _ _ _ _ _ _ hmp hcod hurl hfile]
    exact ⟨rfl, rfl⟩

/-- C1 witness: on `"silicon mp-149"` (dictionary misses, element
resolver would give `"Si"`), the detector overrides with the mp token. -/
theorem external_detector_after_resolvers_witness :
    (parseMaterialRequest "silicon mp-149").source_type = some "mp" ∧
    (parseMaterialRequest "silicon mp-149").material_name = "mp-149" := by
  obtain ⟨hmp, -, -, -⟩ := external_detector_after_resolvers "silicon mp-149" (by decide)
  obtain ⟨h1, h2⟩ := hmp ("mp-149".data) (by decide)
  exact ⟨h1, by rw [h2]⟩

/-! ### Claim C2 -/

/-- C2 counterexample: the input `"nacl cod-2000001"` contains the token
`cod-2000001` (the detector's own matcher finds it), yet the compound
dictionary's early return fires first: `sourceType` stays unset instead
of becoming `"cod"`. -/
theorem cod_claim_fails_on_dict_hit :
    findCod ("nacl cod-2000001".data) = some ("cod-2000001".data) ∧
    (parseMaterialRequest "nacl cod-2000001").source_type = none := by
  decide

/-- C2 (amended): when no compound-dictionary key occurs in the text and
no mp identifier precedes it, the first (case-insensitive)
`cod-?<digits>` token yields `sourceType="cod"` and `materialName` equal
to the token with a leading lowercase `cod`/`cod-` prefix stripped —
digits only when the matched prefix is lowercase; in particular
`"cod-2000001"` yields `materialName="2000001"`. -/
theorem cod_detector_strips_prefix (s : String) (tok : List Char)
    (h0 : compoundMapScan (lowerL s.data) = none)
    (h1 : findMp s.data = none)
    (h2 : findCod s.data = some tok) :
    (parseMaterialRequest s).source_type = some "cod" ∧
    (parseMaterialRequest s).material_name = String.mk (stripCod tok) := by
  rw [parse_eq_external s h0, externalPhase_cod _ _ _ _ _ _ _ h1 h2]
  exact ⟨rfl, rfl⟩

/-- C2 witness: `"cod-2000001"` yields `sourceType="cod"` and the
prefix-stripped `materialName="2000001"`. -/
theorem cod_detector_strips_prefix_witness :
    (parseMaterialRequest "cod-2000001").source_type = some "cod" ∧
    (parseMaterialRequest "cod-2000001").material_name = "2000001" := by
  obtain ⟨h1, h2⟩ :=
    cod_detector_strips_prefix "cod-2000001" ("cod-2000001".data)
      (by decide) (by decide) (by decide)
  exact ⟨h1, h2.trans (by decide)⟩

/-! ### Claim C3 -/

/-- C3 counterexample: the digit pattern `\d+` accepts `0`, so on
`"0x0x0"` the parsed components are `0 < 1`, refuting the "each
component ≥ 1" part of the claim. -/
theorem supercell_zero_component :
    (parseMaterialRequest "0x0x0").supercell_dims = [0, 0, 0] := by
  decide

/-- C3 (amended): `supercellDims` always has exactly three components,
the components are the nonnegative integers read verbatim from the
matched digit runs (zero is possible), and when none of the three
geometry patterns matches anywhere in the lowercased text the default
`(1,1,1)` is kept. -/
theorem supercell_shape_and_default (s : String) :
    ((parseMaterialRequest s).supercell_dims).length = 3 ∧
    (scanFor (tripleAt isSepX) (lowerL s.data) = none →
     scanFor supercellAt (lowerL s.data) = none →
     scanFor wsTripleAt (lowerL s.data) = none →
     (parseMaterialRequest s).supercell_dims = [1, 1, 1]) := by
  constructor
  · rw [parse_dims]
    exact supercellScan_length _
  · intro h1 h2 h3
    rw [parse_dims]
    exact supercellScan_default _ h1 h2 h3

/-- C3 witness: `"hello"` matches no geometry pattern, and the defaults
hold. -/
theorem supercell_shape_and_default_witness :
    ((parseMaterialRequest "hello").supercell_dims).length = 3 ∧
    (parseMaterialRequest "hello").supercell_dims = [1, 1, 1] := by
  obtain ⟨h1, h2⟩ := supercell_shape_and_default "hello"
  exact ⟨h1, h2 (by decide) (by decide) (by decide)⟩

/-! ### Claim C5 -/

/-- C5 counterexample: in `"2 x 2 x 2 3x3x3"` the only bare `DxDxD`
triple is `3x3x3` (the spec-side predicate `containsBareTriple`
certifies it), yet the first geometry pattern also accepts
whitespace-separated triples and its leftmost match `2 x 2 x 2` wins:
the result is `[2,2,2]`, not the bare triple, so the surrounding text
does matter. -/
theorem bare_triple_not_verbatim :
    containsBareTriple "2 x 2 x 2 3x3x3" 3 3 3 = true ∧
    (parseMaterialRequest "2 x 2 x 2 3x3x3").supercell_dims = [2, 2, 2] ∧
    ([2, 2, 2] : List Nat) ≠ [3, 3, 3] := by
  decide

/-- C5 (amended): `supercellDims` equals the three integers, in
left-to-right order, of the leftmost match of the first geometry pattern
(digit run, optional whitespace, `x`/`×`, …) in the lowercased text
whenever that pattern matches; a bare `DxDxD` triple therefore
determines `supercellDims` exactly when no earlier (possibly
whitespace-separated) triple match precedes it. -/
theorem supercell_first_triple_wins (s : String) (a b c : Nat)
    (h : scanFor (tripleAt isSepX) (lowerL s.data) = some (a, b, c)) :
    (parseMaterialRequest s).supercell_dims = [a, b, c] := by
  rw [parse_dims]
  exact supercellScan_first _ _ _ _ h

/-- C5 witness: `"a 5x6x7 b"` has leftmost triple `(5,6,7)`. -/
theorem supercell_first_triple_wins_witness :
    (parseMaterialRequest "a 5x6x7 b").supercell_dims = [5, 6, 7] := by
  exact supercell_first_triple_wins "a 5x6x7 b" 5 6 7 (by decide)

/-! ### Claim C6 -/

/-- C6: the structure-taxonomy matcher assigns the first tag, in the
declaration order of `structureKeywords` (fcc, bcc, hcp, diamond, sc,
zincblende, rocksalt, wurtzite, perovskite, rutile), any of whose
synonyms occurs in the lowercased text, and stops; textual position of
the synonyms is irrelevant. Stated for an arbitrary decomposition of the
table: if every entry before `e` fails to match and `e` matches, the
scan returns `e`'s tag. -/
theorem structure_scan_declaration_order (tl : List Char) (e : String × List String)
    (pre post : List (String × List String))
    (hdec : structureKeywords = pre ++ e :: post)
    (hpre : ∀ x ∈ pre, kwMatches tl x = false)
    (he : kwMatches tl e = true) :
    structureScan tl = some e.1 := by
  unfold structureScan
  rw [hdec, find?_append_first (kwMatches tl) e pre post hpre he]
  rfl

/-- C6 witness: in `"hcp then fcc"` the hcp synonym occurs textually
first, but fcc is earlier in declaration order and wins. -/
theorem structure_scan_declaration_order_witness :
    structureScan (lowerL ("hcp then fcc".data)) = some "fcc" := by
  exact structure_scan_declaration_order (lowerL ("hcp then fcc".data))
    ("fcc", ["fcc", "face-centered cubic", "face centered cubic"])
    [] structureKeywords.tail rfl (by intro x hx; cases hx) (by decide)

/-! ### Claim C7 -/

/-- C7: the input `"SiO2 2x2x2"` resolves through the compound
dictionary with the structure-type override and the geometry stage:
`materialName="SiO2"`, `compound=["Si","O"]`, `structureType="quartz"`,
`supercellDims=(2,2,2)`. -/
theorem sio2_example :
    (parseMaterialRequest "SiO2 2x2x2").material_name = "SiO2" ∧
    (parseMaterialRequest "SiO2 2x2x2").compound = some ["Si", "O"] ∧
    (parseMaterialRequest "SiO2 2x2x2").structure_type = some "quartz" ∧
    (parseMaterialRequest "SiO2 2x2x2").supercell_dims = [2, 2, 2] := by
  decide

/-! ### Claim C8 -/

/-- C8: `parseMaterialRequest` is a total Lean function (so it terminates
on every input with no error path), and every returned record is fully
populated: the caller-reserved fields always carry their inert defaults
and the supercell triple always has exactly three components. The
remaining fields are forced by the record type; the `"Si"` default is
definitional (see `baseResult`/`identityPhase`). -/
theorem parse_total_fully_populated (s : String) :
    (parseMaterialRequest s).use_llm = false ∧
    (parseMaterialRequest s).llm_provider = none ∧
    (parseMaterialRequest s).llm_params = [] ∧
    (parseMaterialRequest s).source_params = [] ∧
    ((parseMaterialRequest s).supercell_dims).length = 3 := by
  obtain ⟨h1, h2, h3, h4⟩ := parse_inert_fields s
  refine ⟨h1, h2, h3, h4, ?_⟩
  rw [parse_dims]
  exact supercellScan_length _

/-! ### Properties of the candidate-token loop -/

/-- Whenever the candidate loop breaks with a compound, that compound has
at least two entries (counted with multiplicity): the digit branch
demands `2 ≤ (formulaSegs tok).length` and the two-capital branch
produces exactly two. -/
theorem candLoop_compound_length :
    ∀ (toks : List (List Char)) (c : List String),
      (candLoop toks).2 = some c → 2 ≤ c.length := by
  intro toks
  induction toks with
  | nil =>
    intro c h
    exact Option.noConfusion h
  | cons tok rest ih =>
    intro c h
    unfold candLoop at h
    split at h
    · exact ih c h
    · split at h
      · split at h
        next hge =>
          injection h with hc
          rw [← hc]
          exact hge
        next hlt =>
          exact ih c h
      · split at h
        next a b =>
          split at h
          · injection h with hc
            rw [← hc]
            exact le_refl 2
          · exact ih c h
        next => exact ih c h

/-- The material-name override produced by the candidate loop always
passed the stop-list filter: its lowercasing is not a common word. -/
theorem candLoop_material_not_common :
    ∀ (toks : List (List Char)) (m : String),
      (candLoop toks).1 = some m →
      commonWords.contains (String.mk (lowerL m.data)) = false := by
  intro toks
  induction toks with
  | nil =>
    intro m h
    exact Option.noConfusion h
  | cons tok rest ih =>
    intro m h
    unfold candLoop at h
    split at h
    · exact ih m h
    next hcommon =>
      have hcf : commonWords.contains (String.mk (lowerL tok)) = false :=
        Bool.eq_false_iff.mpr hcommon
      split at h
      · split at h
        · injection h with hm
          rw [← hm]
          exact hcf
        · injection h with hm
          cases hr : (candLoop rest).1 with
          | some m2 =>
            rw [hr] at hm
            rw [← hm]
            exact ih m2 hr
          | none =>
            rw [hr] at hm
            rw [← hm]
            exact hcf
      · split at h
        next a b =>
          split at h
          · injection h with hm
            rw [← hm]
            exact hcf
          · exact ih m h
        next => exact ih m h

/-! ### Claim C4 -/

/-- C4 counterexample: the digit branch requires two *symbols*, not two
*distinct* elements. `"SiSi2"` segments into `["Si","Si"]` — one
distinct element — and is still accepted as a compound. -/
theorem formula_accepts_repeated_elements :
    (parseMaterialRequest "SiSi2").compound = some ["Si", "Si"] ∧
    (List.dedup ["Si", "Si"]).length = 1 := by
  decide

/-- C4 (amended): in the generic-formula step a digit-containing
candidate token is accepted as a compound only if its alternating-case
segmentation yields at least two element symbols counted with
multiplicity (distinctness is not required); indeed any compound
resolved outside the dictionary has at least two entries. -/
theorem compound_needs_two_symbols (s : String) (c : List String)
    (h0 : compoundMapScan (lowerL s.data) = none)
    (h : (parseMaterialRequest s).compound = some c) :
    2 ≤ c.length := by
  rw [parse_eq_external s h0] at h
  obtain ⟨-, -, -, hcomp, -, -, -, -⟩ :=
    externalPhase_fields s.data (supercellScan (lowerL s.data))
      (structureScan (lowerL s.data)) (latticeScan (lowerL s.data))
      (identityPhase s.data (lowerL s.data)).1 (identityPhase s.data (lowerL s.data)).2
  rw [hcomp] at h
  unfold identityPhase at h
  split at h
  next mOv comp heq =>
    injection h with h2
    rw [← h2]
    exact candLoop_compound_length _ comp (by rw [heq])
  next mOv heq =>
    exact Option.noConfusion h

/-- C4 witness: `"TiN2"` is accepted with the two (distinct, here)
symbols `["Ti","N"]`. -/
theorem compound_needs_two_symbols_witness :
    2 ≤ (["Ti", "N"] : List String).length ∧
    (parseMaterialRequest "TiN2").compound = some ["Ti", "N"] := by
  constructor
  · exact compound_needs_two_symbols "TiN2" ["Ti", "N"] (by decide) (by decide)
  · decide

/-! ### Claim C10 -/

/-- C10: when the compound dictionary misses, the candidate scan yields a
single token that passes the stop-list filter, contains a digit, but
segments into fewer than two symbols, and no external detector fires,
then the token still overwrites `materialName` while `compound` stays
absent, and the element resolver runs afterwards: an element-dictionary
hit (other than the sentinel `"Si"`, which triggers the bare-symbol
fallback) overwrites `materialName` again, otherwise the token stands. -/
theorem formula_token_fallthrough (s : String) (tok : List Char)
    (h1 : compoundMapScan (lowerL s.data) = none)
    (h2 : jsTokens s.data = [tok])
    (h3 : commonWords.contains (String.mk (lowerL tok)) = false)
    (h4 : tok.any isDigitC = true)
    (h5 : (formulaSegs tok).length < 2)
    (h6 : findMp s.data = none)
    (h7 : findCod s.data = none)
    (h8 : findUrl s.data = none)
    (h9 : (hasSepC s.data || endsWithExt s.data) = false) :
    (parseMaterialRequest s).compound = none ∧
    (elementMapScan (lowerL s.data) = none →
      (parseMaterialRequest s).material_name = String.mk tok) ∧
    (∀ sym, elementMapScan (lowerL s.data) = some sym → sym ≠ "Si" →
      (parseMaterialRequest s).material_name = sym) := by
  have hnotge : ¬ 2 ≤ (formulaSegs tok).length := Nat.not_le.mpr h5
  have hcna : ¬ (commonWords.contains (String.mk (lowerL tok)) = true) := by
    rw [h3]
    exact Bool.false_ne_true
  have hcl : candLoop [tok] = (some (String.mk tok), none) := by
    unfold candLoop
    rw [if_neg hcna, if_pos h4, if_neg hnotge]
    rfl
  have hid : identityPhase s.data (lowerL s.data) =
      (elementResolve s.data (lowerL s.data) (String.mk tok), none) := by
    unfold identityPhase
    rw [h2, hcl]
    rfl
  have hp : parseMaterialRequest s =
      baseResult (supercellScan (lowerL s.data)) (structureScan (lowerL s.data))
        (latticeScan (lowerL s.data))
        (elementResolve s.data (lowerL s.data) (String.mk tok)) none none := by
    rw [parse_eq_external s h1, hid,
      externalPhase_plain _ _ _ _ _ _ h6 h7 h8 h9]
  have hne : String.mk tok ≠ "Si" := by
    intro he
    have htok : tok = ['S', 'i'] := congrArg String.data he
    rw [htok] at h4
    exact absurd h4 (by decide)
  refine ⟨?_, ?_, ?_⟩
  · rw [hp]
    rfl
  · intro helem
    rw [hp]
    show elementResolve s.data (lowerL s.data) (String.mk tok) = String.mk tok
    unfold elementResolve
    simp only [helem]
    rw [if_neg hne]
  · intro sym hsym hne2
    rw [hp]
    show elementResolve s.data (lowerL s.data) (String.mk tok) = sym
    unfold elementResolve
    simp only [hsym]
    rw [if_neg hne2]

/-- C10 witness: `"H2"` keeps the token (the element dictionary misses:
`"h2"` contains no element name or symbol key), with no compound. -/
theorem formula_token_fallthrough_witness :
    (parseMaterialRequest "H2").compound = none ∧
    (parseMaterialRequest "H2").material_name = "H2" := by
  obtain ⟨hc, hm, -⟩ :=
    formula_token_fallthrough "H2" ("H2".data) (by decide) (by decide) (by decide)
      (by decide) (by decide) (by decide) (by decide) (by decide) (by decide)
  exact ⟨hc, (hm (by decide)).trans (by decide)⟩

/-! ### Stop-list facts for claim C9 -/

/-- Every stop-list word consists of lowercase letters only. -/
theorem commonWords_all_lower : commonWords.all (fun w => w.data.all isLowerC) = true := by
  decide

/-- A string holding any character that is not a lowercase letter cannot
be a stop-list word. -/
theorem contains_false_of_nonlower (w : String) (c : Char) (hc : c ∈ w.data)
    (hna : isLowerC c = false) : commonWords.contains w = false := by
  cases hcw : commonWords.contains w with
  | false => rfl
  | true =>
    have hmem : w ∈ commonWords := mem_of_contains hcw
    have hall := List.all_eq_true.mp commonWords_all_lower w hmem
    have hlc := List.all_eq_true.mp hall c hc
    rw [hna] at hlc
    exact Bool.noConfusion hlc

/-- A word containing a character fixed by `jsToLower` that is not a
lowercase letter never lowercases to a stop-list word. -/
theorem notCommon_of_mem_char (w : List Char) (c : Char) (hc : c ∈ w)
    (h1 : jsToLower c = c) (h2 : isLowerC c = false) :
    commonWords.contains (String.mk (lowerL w)) = false := by
  apply contains_false_of_nonlower _ c _ h2
  show c ∈ lowerL w
  rw [← h1]
  exact List.mem_map_of_mem jsToLower hc

/-- Digits are fixed points of `jsToLower` and are not lowercase
letters. -/
theorem digit_lower_facts {d : Char} (hd : isDigitC d = true) :
    jsToLower d = d ∧ isLowerC d = false := by
  have hp : '0' ≤ d ∧ d ≤ '9' := of_decide_eq_true hd
  constructor
  · unfold jsToLower
    rw [if_neg]
    rintro ⟨hA, -⟩
    exact absurd (le_trans hA hp.2) (by decide)
  · unfold isLowerC
    rw [decide_eq_false]
    rintro ⟨ha, -⟩
    exact absurd (le_trans ha hp.2) (by decide)

/-! ### Shapes of the external-detector tokens -/

/-- A successful mp match always contains the literal dash. -/
theorem mpAt_shape {cs tok rest : List Char} (h : mpAt cs = some (tok, rest)) :
    '-' ∈ tok := by
  rcases cs with _ | ⟨c0, _ | ⟨c1, _ | ⟨c2, r⟩⟩⟩
  · simp [mpAt] at h
  · simp [mpAt] at h
  · simp [mpAt] at h
  · by_cases h1 : (jsToLower c0 == 'm' && jsToLower c1 == 'p' && c2 == '-') = true
    · by_cases h2 : ((r.takeWhile isDigitC).isEmpty) = true
      · simp [mpAt, h1, h2] at h
      · by_cases h3 : endBoundary (r.dropWhile isDigitC) = true
        · have heq : mpAt (c0 :: c1 :: c2 :: r) =
              some (c0 :: c1 :: c2 :: r.takeWhile isDigitC, r.dropWhile isDigitC) := by
            simp [mpAt, h1, h2, h3]
          rw [heq] at h
          injection h with hpair
          injection hpair with htok hrest
          simp only [Bool.and_eq_true, beq_iff_eq] at h1
          rw [← htok, h1.2]
          simp
        · simp [mpAt, h1, h2, h3] at h
    · simp [mpAt, h1] at h

/-- A successful cod match always contains a digit. -/
theorem codAt_digit {cs tok rest : List Char} (h : codAt cs = some (tok, rest)) :
    ∃ d, d ∈ tok ∧ isDigitC d = true := by
  rcases cs with _ | ⟨c0, _ | ⟨c1, _ | ⟨c2, r⟩⟩⟩
  · simp [codAt] at h
  · simp [codAt] at h
  · simp [codAt] at h
  · by_cases h1 : (jsToLower c0 == 'c' && jsToLower c1 == 'o' && jsToLower c2 == 'd') = true
    · rcases r with _ | ⟨c3, r2⟩
      · simp [codAt, h1] at h
      · by_cases hdash : (c3 == '-') = true
        · by_cases h2 : ((r2.takeWhile isDigitC).isEmpty) = true
          · simp [codAt, h1, hdash, h2] at h
          · by_cases h3 : endBoundary (r2.dropWhile isDigitC) = true
            · have heq : codAt (c0 :: c1 :: c2 :: c3 :: r2) =
                  some (c0 :: c1 :: c2 :: c3 :: r2.takeWhile isDigitC,
                    r2.dropWhile isDigitC) := by
                simp [codAt, h1, hdash, h2, h3]
              rw [heq] at h
              injection h with hpair
              injection hpair with htok hrest
              have hne : r2.takeWhile isDigitC ≠ [] := by
                intro hnil
                rw [hnil] at h2
                exact h2 rfl
              obtain ⟨d, hdmem⟩ := List.exists_mem_of_ne_nil _ hne
              refine ⟨d, ?_, List.mem_takeWhile_imp hdmem⟩
              rw [← htok]
              simp only [List.mem_cons]
              exact Or.inr (Or.inr (Or.inr (Or.inr hdmem)))
            · simp [codAt, h1, hdash, h2, h3] at h
        · by_cases h2 : (((c3 :: r2).takeWhile isDigitC).isEmpty) = true
          · simp [codAt, h1, hdash, h2] at h
          · by_cases h3 : endBoundary ((c3 :: r2).dropWhile isDigitC) = true
            · have heq : codAt (c0 :: c1 :: c2 :: c3 :: r2) =
                  some (c0 :: c1 :: c2 :: (c3 :: r2).takeWhile isDigitC,
                    (c3 :: r2).dropWhile isDigitC) := by
                simp [codAt, h1, hdash, h2, h3]
              rw [heq] at h
              injection h with hpair
              injection hpair with htok hrest
              have hne : (c3 :: r2).takeWhile isDigitC ≠ [] := by
                intro hnil
                rw [hnil] at h2
                exact h2 rfl
              obtain ⟨d, hdmem⟩ := List.exists_mem_of_ne_nil _ hne
              refine ⟨d, ?_, List.mem_takeWhile_imp hdmem⟩
              rw [← htok]
              simp only [List.mem_cons]
              exact Or.inr (Or.inr (Or.inr hdmem))
            · simp [codAt, h1, hdash, h2, h3] at h
    · simp [codAt, h1] at h

/-- The case-sensitive prefix strip removes only the non-digit characters
`c`, `o`, `d`, `-`, so every digit of the token survives it. -/
theorem stripCod_mem_digit {t : List Char} {d : Char} (hd : d ∈ t)
    (hdig : isDigitC d = true) : d ∈ stripCod t := by
  rcases t with _ | ⟨a, _ | ⟨b, _ | ⟨c, rest⟩⟩⟩
  · exact hd
  · exact hd
  · exact hd
  · by_cases hco : (a == 'c' && b == 'o' && c == 'd') = true
    · simp only [Bool.and_eq_true, beq_iff_eq] at hco
      obtain ⟨⟨ha, hb⟩, hc⟩ := hco
      subst ha; subst hb; subst hc
      have hd1 : d ∈ rest := by
        rcases List.mem_cons.mp hd with rfl | hd1
        · exact absurd hdig (by decide)
        · rcases List.mem_cons.mp hd1 with rfl | hd2
          · exact absurd hdig (by decide)
          · rcases List.mem_cons.mp hd2 with rfl | hd3
            · exact absurd hdig (by decide)
            · exact hd3
      cases rest with
      | nil => cases hd1
      | cons d2 rest2 =>
        by_cases hdash : (d2 == '-') = true
        · have hstrip : stripCod ('c' :: 'o' :: 'd' :: d2 :: rest2) = rest2 := by
            simp [stripCod, hdash]
          rw [hstrip]
          rcases List.mem_cons.mp hd1 with rfl | h5
          · rw [beq_iff_eq.mp hdash] at hdig
            exact absurd hdig (by decide)
          · exact h5
        · have hstrip : stripCod ('c' :: 'o' :: 'd' :: d2 :: rest2) = d2 :: rest2 := by
            simp [stripCod, Bool.eq_false_iff.mpr hdash]
          rw [hstrip]
          exact hd1
    · have hstrip : stripCod (a :: b :: c :: rest) = a :: b :: c :: rest := by
        simp only [stripCod]
        rw [if_neg hco]
      rw [hstrip]
      exact hd

/-- A successful URL match always contains the literal colon. -/
theorem urlAt_colon {cs tok : List Char} (h : urlAt cs = some tok) : ':' ∈ tok := by
  rcases cs with _ | ⟨c0, _ | ⟨c1, _ | ⟨c2, _ | ⟨c3, _ | ⟨c4, _ | ⟨c5, _ | ⟨c6, _ | ⟨c7, r2⟩⟩⟩⟩⟩⟩⟩⟩
  · simp [urlAt] at h
  · simp [urlAt] at h
  · simp [urlAt] at h
  · simp [urlAt] at h
  · simp [urlAt] at h
  · simp [urlAt] at h
  · simp [urlAt] at h
  · simp [urlAt] at h
  · by_cases h1 : (c0 == 'h' && c1 == 't' && c2 == 't' && c3 == 'p') = true
    · by_cases h2 : (c4 == 's') = true
      · by_cases h3 : (c5 == ':' && c6 == '/' && c7 == '/') = true
        · by_cases h4 : ((r2.takeWhile (fun c => !isSpaceC c)).isEmpty) = true
          · simp [urlAt, h1, h2, h3, h4] at h
          · have heq : urlAt (c0 :: c1 :: c2 :: c3 :: c4 :: c5 :: c6 :: c7 :: r2) =
                some (c0 :: c1 :: c2 :: c3 :: c4 :: c5 :: c6 :: c7 ::
                  r2.takeWhile (fun c => !isSpaceC c)) := by
              simp [urlAt, h1, h2, h3, h4]
            rw [heq] at h
            injection h with htok
            simp only [Bool.and_eq_true, beq_iff_eq] at h3
            rw [← htok, h3.1.1]
            simp
        · simp [urlAt, h1, h2, h3] at h
      · by_cases h3 : (c4 == ':' && c5 == '/' && c6 == '/') = true
        · by_cases h4 : (((c7 :: r2).takeWhile (fun c => !isSpaceC c)).isEmpty) = true
          · simp [urlAt, h1, h2, h3, h4] at h
          · have heq : urlAt (c0 :: c1 :: c2 :: c3 :: c4 :: c5 :: c6 :: c7 :: r2) =
                some (c0 :: c1 :: c2 :: c3 :: c4 :: c5 :: c6 ::
                  (c7 :: r2).takeWhile (fun c => !isSpaceC c)) := by
              simp [urlAt, h1, h2, h3, h4]
            rw [heq] at h
            injection h with htok
            simp only [Bool.and_eq_true, beq_iff_eq] at h3
            rw [← htok, h3.1.1]
            simp
        · simp [urlAt, h1, h2, h3] at h
    · simp [urlAt, h1] at h

/-! ### No branch of the interpreter produces a stop-list material name -/

theorem material_mp_not_common {td tok : List Char} (h : findMp td = some tok) :
    commonWords.contains (String.mk (lowerL tok)) = false := by
  obtain ⟨suf, rest, hat⟩ := findTok_some mpAt none td tok h
  exact notCommon_of_mem_char tok '-' (mpAt_shape hat) (by decide) (by decide)

theorem material_cod_not_common {td tok : List Char} (h : findCod td = some tok) :
    commonWords.contains (String.mk (lowerL (stripCod tok))) = false := by
  obtain ⟨suf, rest, hat⟩ := findTok_some codAt none td tok h
  obtain ⟨d, hdmem, hdig⟩ := codAt_digit hat
  obtain ⟨hlow, hnl⟩ := digit_lower_facts hdig
  exact notCommon_of_mem_char _ d (stripCod_mem_digit hdmem hdig) hlow hnl

theorem material_url_not_common {td tok : List Char} (h : findUrl td = some tok) :
    commonWords.contains (String.mk (lowerL tok)) = false := by
  obtain ⟨suf, hat⟩ := scanFor_some urlAt td tok h
  exact notCommon_of_mem_char tok ':' (urlAt_colon hat) (by decide) (by decide)

theorem material_sep_not_common {td : List Char} (h : hasSepC td = true) :
    commonWords.contains (String.mk (lowerL (jsTrim td))) = false := by
  obtain ⟨c, hc, hcp⟩ := List.any_eq_true.mp h
  have hcc : c = '/' ∨ c = '\\' := by
    simpa [Bool.or_eq_true, beq_iff_eq] using hcp
  rcases hcc with rfl | rfl
  · exact notCommon_of_mem_char _ '/' (mem_jsTrim_of_nonspace hc (by decide))
      (by decide) (by decide)
  · exact notCommon_of_mem_char _ '\\' (mem_jsTrim_of_nonspace hc (by decide))
      (by decide) (by decide)

theorem material_ext_not_common {td : List Char} (h : endsWithExt td = true) :
    commonWords.contains (String.mk (lowerL (jsTrim td))) = false := by
  obtain ⟨e, he, hsuf⟩ := List.any_eq_true.mp h
  have hdot : '.' ∈ e.data := by
    have hall : ∀ x ∈ extList, '.' ∈ x.data := by decide
    exact hall e he
  have hmem : '.' ∈ td := mem_of_isSuffixL hsuf hdot
  exact notCommon_of_mem_char _ '.' (mem_jsTrim_of_nonspace hmem (by decide))
    (by decide) (by decide)

/-- No display name in the compound dictionary lowercases to a stop-list
word. -/
theorem compoundMap_names_ok :
    ∀ e ∈ compoundMap, commonWords.contains (String.mk (lowerL e.2.1.data)) = false := by
  decide

/-- No symbol in the element dictionary lowercases to a stop-list word. -/
theorem elementMap_syms_ok :
    ∀ e ∈ elementMap, commonWords.contains (String.mk (lowerL e.2.data)) = false := by
  decide

theorem firstPotentialElement_not_common {td : List Char} {m : String}
    (h : firstPotentialElement td = some m) :
    commonWords.contains (String.mk (lowerL m.data)) = false := by
  unfold firstPotentialElement at h
  obtain ⟨t, ht, hmt⟩ := Option.map_eq_some'.mp h
  have hmem : t ∈ (symTokens td).filter
      (fun t => !commonWords.contains (String.mk (lowerL t)) && t.length ≤ 2) := by
    obtain ⟨ys, hys⟩ := List.head?_eq_some_iff.mp ht
    rw [hys]
    exact List.mem_cons_self t ys
  have hp := List.of_mem_filter hmem
  rw [Bool.and_eq_true] at hp
  have hne := hp.1
  rw [Bool.not_eq_true'] at hne
  rw [← hmt]
  exact hne

theorem elementResolve_not_common (td tl : List Char) (m2 : String)
    (hm2 : commonWords.contains (String.mk (lowerL m2.data)) = false) :
    commonWords.contains (String.mk (lowerL ((elementResolve td tl m2)).data)) = false := by
  unfold elementResolve
  split
  next sym heq =>
    have hsym : commonWords.contains (String.mk (lowerL sym.data)) = false := by
      obtain ⟨e, hfind, hev⟩ := Option.map_eq_some'.mp heq
      rw [← hev]
      exact elementMap_syms_ok e (List.mem_of_find?_eq_some hfind)
    split
    · cases hfp : firstPotentialElement td with
      | some m3 =>
        simp only [hfp, Option.getD_some]
        exact firstPotentialElement_not_common hfp
      | none =>
        simp only [hfp, Option.getD_none]
        exact hsym
    · exact hsym
  next heq =>
    split
    · cases hfp : firstPotentialElement td with
      | some m3 =>
        simp only [hfp, Option.getD_some]
        exact firstPotentialElement_not_common hfp
      | none =>
        simp only [hfp, Option.getD_none]
        exact hm2
    · exact hm2

theorem identityPhase_not_common (td tl : List Char) :
    commonWords.contains (String.mk (lowerL ((identityPhase td tl).1).data)) = false := by
  unfold identityPhase
  split
  next mOv comp heq =>
    cases mOv with
    | some m =>
      show commonWords.contains (String.mk (lowerL m.data)) = false
      exact candLoop_material_not_common (jsTokens td) m (by rw [heq])
    | none =>
      show commonWords.contains (String.mk (lowerL ("Si" : String).data)) = false
      decide
  next mOv heq =>
    show commonWords.contains
      (String.mk (lowerL ((elementResolve td tl (mOv.getD "Si"))).data)) = false
    apply elementResolve_not_common
    cases mOv with
    | some m =>
      show commonWords.contains (String.mk (lowerL m.data)) = false
      exact candLoop_material_not_common (jsTokens td) m (by rw [heq])
    | none =>
      show commonWords.contains (String.mk (lowerL ("Si" : String).data)) = false
      decide

/-! ### Claim C9 -/

/-- C9 counterexample: the stop-list filter applies to whole candidate
tokens, not to the element symbols obtained by segmenting an accepted
formula token: `"AtN2"` passes the filter (as a whole) and its
segmentation puts the capitalized stop word `"At"` into `compound`. -/
theorem stopword_inside_compound :
    commonWords.contains "at" = true ∧
    String.mk (lowerL ("At".data)) = "at" ∧
    (parseMaterialRequest "AtN2").compound = some ["At", "N"] := by
  decide

/-- C9 (amended): no stop-list word — in any capitalization — ever
becomes `materialName`: on every code path the lowercased material name
is not a member of `commonWords`. (The corresponding guarantee fails for
the entries of `compound`: segmentation of an accepted formula token can
produce a capitalized stop word, see the counterexample.) -/
theorem material_never_stopword (s : String) :
    commonWords.contains
      (String.mk (lowerL ((parseMaterialRequest s).material_name).data)) = false := by
  cases hdict : compoundMapScan (lowerL s.data) with
  | some v =>
    obtain ⟨name, comp, stOv⟩ := v
    rw [parse_eq_dict s name comp stOv hdict]
    show commonWords.contains (String.mk (lowerL name.data)) = false
    obtain ⟨e, hfind, hev⟩ := Option.map_eq_some'.mp hdict
    have hname : e.2.1 = name := congrArg Prod.fst hev
    rw [← hname]
    exact compoundMap_names_ok e (List.mem_of_find?_eq_some hfind)
  | none =>
    rw [parse_eq_external s hdict]
    cases hmp : findMp s.data with
    | some tok =>
      rw [externalPhase_mp _ _ _ _ _ _ _ hmp]
      show commonWords.contains (String.mk (lowerL tok)) = false
      exact material_mp_not_common hmp
    | none =>
      cases hcod : findCod s.data with
      | some tok =>
        rw [externalPhase_cod _ _ _ _ _ _ _ hmp hcod]
        show commonWords.contains (String.mk (lowerL (stripCod tok))) = false
        exact material_cod_not_common hcod
      | none =>
        cases hurl : findUrl s.data with
        | some tok =>
          rw [externalPhase_url _ _ _ _ _ _ _ hmp hcod hurl]
          show commonWords.contains (String.mk (lowerL tok)) = false
          exact material_url_not_common hurl
        | none =>
          cases hfile : (hasSepC s.data || endsWithExt s.data) with
          | true =>
            rw [externalPhase_file _ _ _ _ _ _ hmp hcod hurl hfile]
            show commonWords.contains (String.mk (lowerL (jsTrim s.data))) = false
            have hor : hasSepC s.data = true ∨ endsWithExt s.data = true := by
              simpa [Bool.or_eq_true] using hfile
            rcases hor with hsep | hext
            · exact material_sep_not_common hsep
            · exact material_ext_not_common hext
          | false =>
            rw [externalPhase_plain _ _ _ _ _ _ hmp hcod hurl hfile]
            show commonWords.contains
              (String.mk (lowerL ((identityPhase s.data (lowerL s.data)).1).data)) = false
            exact identityPhase_not_common s.data (lowerL s.data)

end ChatMat
